import Mathlib

/-!
Verification of the cue-sheet parser and split-command synthesizer of flac_belcher
(src/cue.py, src/music_cmd.py, src/utils.py) against its specification.

Python strings are modelled as lists of characters (`PyStr`), Python floats as
rationals, dictionaries with optional keys as structures with `Option` fields,
and an uncaught Python exception as `Except.error`.
-/

namespace FlacBelcher

/-- Python strings, modelled as lists of characters. -/
abbrev PyStr := List Char

/-- Whitespace characters stripped by Python's str.strip (the ASCII set). -/
def pyWs (c : Char) : Bool :=
  c = ' ' || c = '\t' || c = '\n' || c = '\r' || c = '\x0b' || c = '\x0c'

/-- Python s.startswith(p). -/
def pyStartsWith (s p : PyStr) : Bool := p.isPrefixOf s

/-- Python s.split(sep) for a one-character separator: adjacent separators produce
empty fields, and the result is never empty. -/
def pySplitC (sep : Char) : PyStr → List PyStr
  | [] => [[]]
  | c :: rest =>
    if c = sep then [] :: pySplitC sep rest
    else
      match pySplitC sep rest with
      | [] => [[c]]
      | h :: t => (c :: h) :: t

/-- Python sep.join(parts). -/
def joinWith (sep : PyStr) : List PyStr → PyStr
  | [] => []
  | [x] => x
  | x :: rest => x ++ sep ++ joinWith sep rest

/-- Python s.strip(). -/
def pyStrip (s : PyStr) : PyStr :=
  ((s.dropWhile pyWs).reverse.dropWhile pyWs).reverse

/-- Python s.replace(c, "") for a one-character pattern c. -/
def removeChar (c : Char) (s : PyStr) : PyStr := s.filter (· != c)

/-- Python s.replace(a, b) for one-character pattern and replacement. -/
def replaceChar (a b : Char) (s : PyStr) : PyStr := s.map fun c => if c = a then b else c

/-- Worker for str.splitlines: splits on \n, \r\n and \r (the separators that occur
in cue files; Python additionally handles rarer vertical-space characters). -/
def pySplitlinesGo : List Char → List Char → List PyStr
  | [], acc => if acc.isEmpty then [] else [acc.reverse]
  | '\r' :: '\n' :: rest, acc => acc.reverse :: pySplitlinesGo rest []
  | '\r' :: rest, acc => acc.reverse :: pySplitlinesGo rest []
  | '\n' :: rest, acc => acc.reverse :: pySplitlinesGo rest []
  | c :: rest, acc => pySplitlinesGo rest (c :: acc)

/-- Python s.splitlines(). -/
def pySplitlines (s : PyStr) : List PyStr := pySplitlinesGo s []

/-- Decimal digit character; callers always pass a value below ten. -/
def digitChar : ℕ → Char
  | 0 => '0'
  | 1 => '1'
  | 2 => '2'
  | 3 => '3'
  | 4 => '4'
  | 5 => '5'
  | 6 => '6'
  | 7 => '7'
  | 8 => '8'
  | _ => '9'

/-- Decimal rendering of a natural number, fuel-indexed so that it reduces by rfl. -/
def natToCharsAux : ℕ → ℕ → List Char
  | 0, _ => []
  | fuel + 1, n =>
    if n < 10 then [digitChar n] else natToCharsAux fuel (n / 10) ++ [digitChar (n % 10)]

/-- Decimal rendering of a natural number, as produced by Python's str. -/
def natToChars (n : ℕ) : PyStr := natToCharsAux (n + 1) n

/-- Python str applied to an int. -/
def intToChars (i : ℤ) : PyStr := if i < 0 then '-' :: natToChars i.natAbs else natToChars i.natAbs

/-- Numeric value of a digit character. -/
def charVal (c : Char) : ℕ := c.toNat - 48

/-- Python int(s, 10) on an unsigned decimal token; none models ValueError. -/
def pyParseNat (s : PyStr) : Option ℕ :=
  if !s.isEmpty && s.all Char.isDigit then
    some (s.foldl (fun a c => 10 * a + charVal c) 0)
  else none

/-- Python int(s, 10) with sign handling (the whitespace and underscore tolerance of
Python's int is never exercised by cue-sheet tokens). -/
def pyParseInt (s : PyStr) : Option ℤ :=
  match s with
  | '-' :: rest => (pyParseNat rest).map (fun n => -(n : ℤ))
  | _ => (pyParseNat s).map (fun n => (n : ℤ))

/-- Python int() applied to a float (truncation toward zero), on the rational model. -/
def pyTrunc (q : ℚ) : ℤ := if q < 0 then -((-q).floor) else q.floor

/-- Python float modulo (floored remainder). -/
def pyFMod (x y : ℚ) : ℚ := x - y * ((x / y).floor : ℤ)

/-- C-style "%.2d" formatting: at least two digits, zero-padded, sign in front. -/
def fmt2 (i : ℤ) : PyStr :=
  let ds := natToChars i.natAbs
  let padded := if ds.length < 2 then '0' :: ds else ds
  if i < 0 then '-' :: padded else padded

/-- The "%.2d:%.2d:%.2d" % (int(s)/60/60, int(s)/60 % 60, int(s) % 60) timestamp of
music_cmd.py: float divisions truncated by %d, integer modulo for the seconds. -/
def fmtHMS (q : ℚ) : PyStr :=
  let n : ℤ := pyTrunc q
  fmt2 (pyTrunc ((n : ℚ) / 60 / 60)) ++
    ':' :: fmt2 (pyTrunc (pyFMod ((n : ℚ) / 60) 60)) ++
    ':' :: fmt2 (n % 60)

/-- The album-level dictionary built by parse_cue; none models an absent key. -/
structure GeneralInfo where
  genre : Option PyStr := none
  date : Option PyStr := none
  artist : Option PyStr := none
  album : Option PyStr := none
  file : Option PyStr := none
  file_type : Option PyStr := none
deriving Repr, DecidableEq

/-- A track dictionary: the snapshot of the general dictionary taken at the TRACK
directive, plus the track-level keys. -/
structure Track where
  genre : Option PyStr := none
  date : Option PyStr := none
  artist : Option PyStr := none
  album : Option PyStr := none
  file : Option PyStr := none
  file_type : Option PyStr := none
  track : ℤ := 0
  title : Option PyStr := none
  start : Option ℚ := none
  duration : Option ℚ := none
deriving Repr, DecidableEq

/-- track = general.copy() followed by track["track"] = n. -/
def mkTrack (g : GeneralInfo) (n : ℤ) : Track :=
  { genre := g.genre, date := g.date, artist := g.artist, album := g.album,
    file := g.file, file_type := g.file_type, track := n }

/-- The gate: "file_type" in general and general["file_type"] not in ["BINARY"]. -/
def gateOpen (g : GeneralInfo) : Bool :=
  match g.file_type with
  | none => false
  | some t => t != "BINARY".data

/-- The five ungated album-level ifs of parse_cue's loop body. -/
def headerStep (g : GeneralInfo) (line : PyStr) : GeneralInfo :=
  let g := if pyStartsWith line "REM GENRE ".data then
      { g with genre := some (removeChar '"' (joinWith [' '] ((pySplitC ' ' line).drop 2))) }
    else g
  let g := if pyStartsWith line "REM DATE ".data then
      { g with date := some (joinWith [' '] ((pySplitC ' ' line).drop 2)) }
    else g
  let g := if pyStartsWith line "PERFORMER ".data then
      { g with artist := some (removeChar '"' (joinWith [' '] ((pySplitC ' ' line).drop 1))) }
    else g
  let g := if pyStartsWith line "TITLE ".data then
      { g with album := some (removeChar '"' (joinWith [' '] ((pySplitC ' ' line).drop 1))) }
    else g
  let g := if pyStartsWith line "FILE ".data then
      { g with file := some (removeChar '"' (joinWith [' '] (((pySplitC ' ' line).drop 1).dropLast))),
               file_type := some ((pySplitC ' ' line).getLastD []) }
    else g
  g

/-- Python list indexing, raising IndexError when out of range. -/
def pyGet (l : List α) (i : ℕ) : Except String α :=
  match l.get? i with
  | some x => .ok x
  | none => .error "IndexError: list index out of range"

/-- Python int() raising ValueError on a malformed literal. -/
def pyInt (s : PyStr) : Except String ℤ :=
  match pyParseInt s with
  | some v => .ok v
  | none => .error "ValueError: invalid literal for int() with base 10"

/-- tracks[-1] update; the IndexError raised on an empty list becomes Except.error. -/
def setLast (tracks : List Track) (f : Track → Track) : Except String (List Track) :=
  match tracks.getLast? with
  | none => .error "IndexError: list index out of range"
  | some t => .ok (tracks.dropLast ++ [f t])

/-- The INDEX 01 timestamp computation of parse_cue:
t = [int(a) for a in " ".join(line.strip().split(" ")[2:]).replace('"', "").split(":")]
followed by 60 * t[0] + t[1] + t[2] / 100.0. -/
def parseIndexTime (line : PyStr) : Except String ℚ := do
  let chunk := removeChar '"' (joinWith [' '] ((pySplitC ' ' (pyStrip line)).drop 2))
  let ts ← (pySplitC ':' chunk).mapM pyInt
  let t0 ← pyGet ts 0
  let t1 ← pyGet ts 1
  let t2 ← pyGet ts 2
  return 60 * (t0 : ℚ) + (t1 : ℚ) + (t2 : ℚ) / 100

/-- The four gated track-level ifs of parse_cue's loop body. -/
def trackStep (g : GeneralInfo) (tracks : List Track) (line : PyStr) :
    Except String (List Track) := do
  let tracks ←
    if pyStartsWith line "  TRACK ".data then do
      let tok ← pyGet (pySplitC ' ' (pyStrip line)) 1
      let n ← pyInt tok
      pure (tracks ++ [mkTrack g n])
    else pure tracks
  let tracks ←
    if pyStartsWith line "    TITLE ".data then
      setLast tracks fun t =>
        { t with title := some (removeChar '"' (joinWith [' '] ((pySplitC ' ' (pyStrip line)).drop 1))) }
    else pure tracks
  let tracks ←
    if pyStartsWith line "    PERFORMER ".data then
      setLast tracks fun t =>
        { t with artist := some (removeChar '"' (joinWith [' '] ((pySplitC ' ' (pyStrip line)).drop 1))) }
    else pure tracks
  let tracks ←
    if pyStartsWith line "    INDEX 01 ".data then do
      let q ← parseIndexTime line
      setLast tracks fun t => { t with start := some q }
    else pure tracks
  return tracks

/-- One iteration of parse_cue's line loop: the album-level ifs, then the gated
track-level ifs (the gate reads the general dictionary updated by this very line). -/
def lineStep (st : GeneralInfo × List Track) (line : PyStr) :
    Except String (GeneralInfo × List Track) := do
  let g := headerStep st.1 line
  if gateOpen g then
    let ts ← trackStep g st.2 line
    return (g, ts)
  else
    return (g, st.2)

/-- track["start"] lookup; a missing key raises KeyError. -/
def pyStart (t : Track) : Except String ℚ :=
  match t.start with
  | some q => .ok q
  | none => .error "KeyError: start"

/-- The second pass of parse_cue:
tracks[i]["duration"] = tracks[i+1]["start"] - tracks[i]["start"] for every i except
the last (Python evaluates tracks[i+1]["start"] first). -/
def durationPass : List Track → Except String (List Track)
  | [] => .ok []
  | [t] => .ok [t]
  | t1 :: t2 :: rest => do
    let s2 ← pyStart t2
    let s1 ← pyStart t1
    let tail ← durationPass (t2 :: rest)
    return { t1 with duration := some (s2 - s1) } :: tail

/-- parse_cue from cue.py, starting from the Text Decoder's result (the byte read
itself is I/O glue); Except.error models an uncaught Python exception. -/
def parse_cue (content_text : Option PyStr) :
    Except String (ℕ × GeneralInfo × List Track) :=
  match content_text with
  | none => .ok (1, {}, [])
  | some text => do
    let st ← (pySplitlines text).foldlM lineStep ({}, [])
    let tracks ← durationPass st.2
    return (0, st.1, tracks)

/-- The characters replaced by safe_name. -/
def illegalChars : List Char := ['\\', '/', ':', '*', '?', '"', '<', '>', '|']

/-- safe_name from music_cmd.py: each listed character replaced by an underscore. -/
def safe_name (s : PyStr) : PyStr :=
  illegalChars.foldl (fun acc c => replaceChar c '_' acc) s

/-- filename = "%.2d - %s.flac" % (int(track["track"]), track["title"].replace(":", "-"))
followed by filename = safe_name(filename), from make_split_cmd. -/
def split_filename (t : Track) : Except String PyStr := do
  let title ← match t.title with
    | some v => Except.ok v
    | none => Except.error "KeyError: title"
  return safe_name (fmt2 t.track ++ " - ".data ++ replaceChar ':' '-' title ++ ".flac".data)

/-- posixpath.join for two components. -/
def pyPathJoin (a b : PyStr) : PyStr :=
  if b.head? = some '/' then b
  else if a.isEmpty then b
  else if a.getLastD ' ' = '/' then a ++ b
  else a ++ '/' :: b

/-- The loop body of make_split_cmd for one track; total is len(tracks). -/
def trackCmd (total : ℕ) (ffmpeg_path current_file dir_out : PyStr)
    (verbose overwrite : Bool) (t : Track) : Except String PyStr := do
  let artist ← match t.artist with
    | some v => Except.ok v
    | none => Except.error "KeyError: artist"
  let title ← match t.title with
    | some v => Except.ok v
    | none => Except.error "KeyError: title"
  let album ← match t.album with
    | some v => Except.ok v
    | none => Except.error "KeyError: album"
  let metadata : List (PyStr × PyStr) :=
    [("artist".data, artist), ("title".data, title), ("album".data, album),
     ("track".data, intToChars t.track ++ '/' :: natToChars total)]
  let metadata := metadata ++ (match t.genre with | some v => [("genre".data, v)] | none => [])
  let metadata := metadata ++ (match t.date with | some v => [("date".data, v)] | none => [])
  let cmd := ffmpeg_path
  let cmd := if verbose then cmd else cmd ++ " -nostats".data
  let cmd := cmd ++ " -i \"".data ++ current_file ++ "\"".data
  let s ← pyStart t
  let cmd := cmd ++ " -ss ".data ++ fmtHMS s
  let cmd := match t.duration with
    | some dur => cmd ++ " -t ".data ++ fmtHMS dur
    | none => cmd
  let cmd := cmd ++ ' ' ::
    joinWith [' '] (metadata.map fun kv => "-metadata ".data ++ kv.1 ++ "=\"".data ++ kv.2 ++ "\"".data)
  let filename ← split_filename t
  let cmd := cmd ++ ' ' :: '"' :: pyPathJoin dir_out filename ++ "\"".data
  let cmd := if overwrite then cmd else cmd ++ " -n".data
  return cmd

/-- make_split_cmd from music_cmd.py. -/
def make_split_cmd (tracks : List Track) (ffmpeg_path current_file dir_out : PyStr)
    (verbose overwrite : Bool) : Except String (List PyStr) :=
  tracks.mapM (trackCmd tracks.length ffmpeg_path current_file dir_out verbose overwrite)

/-- Environment of one decode_bytes_with_fallback call on a fixed byte string: the
guesses of chardet and magic (none models a falsy value), the outcome of attempting
bytes.decode(enc) for a named encoding (none models a raised exception), and the value
of bytes.decode("utf-8", errors="replace"), which never raises. -/
structure DecodeEnv where
  encoding_m : Option PyStr
  encoding_d : Option PyStr
  confidence_d : ℚ
  decodeWith : PyStr → Option PyStr
  utf8Replace : PyStr

/-- decode_bytes_with_fallback from utils.py: chardet's guess when confident, then
magic's guess, then chardet's guess again, then the total UTF-8-replace fallback. -/
def decode_bytes_with_fallback (e : DecodeEnv) : Option PyStr :=
  let c1 := match e.encoding_d with
    | some enc => if e.confidence_d > 8 / 10 then e.decodeWith enc else none
    | none => none
  let c2 := match e.encoding_m with
    | some enc => e.decodeWith enc
    | none => none
  let c3 := match e.encoding_d with
    | some enc => e.decodeWith enc
    | none => none
  ((c1.orElse fun _ => c2).orElse fun _ => c3).orElse fun _ => some e.utf8Replace

/-! Input generators used to state the testable properties about whole cue texts. -/

/-- A canonical TRACK directive line. -/
def trackLine (n : ℕ) : PyStr := "  TRACK ".data ++ natToChars n ++ " AUDIO".data

/-- A canonical INDEX 01 line carrying an MM:SS:FF timestamp. -/
def indexLine (m s f : ℕ) : PyStr :=
  "    INDEX 01 ".data ++ natToChars m ++ ':' :: natToChars s ++ ':' :: natToChars f

/-- An INDEX 00 (pre-gap) line carrying an MM:SS:FF timestamp. -/
def index00Line (m s f : ℕ) : PyStr :=
  "    INDEX 00 ".data ++ natToChars m ++ ':' :: natToChars s ++ ':' :: natToChars f

/-- A FILE directive line with a quoted filename and a type tag. -/
def fileHeader (file ft : PyStr) : PyStr := "FILE \"".data ++ file ++ '"' :: ' ' :: ft

/-- Description of one track of a generated cue sheet: the declared track number and
the MM, SS, FF fields of its INDEX 01 line. -/
structure CueSpec where
  num : ℕ
  mm : ℕ
  ss : ℕ
  ff : ℕ
deriving Repr, DecidableEq

/-- The track directives described by a list of track specifications. -/
def cueSpecLines : List CueSpec → List PyStr
  | [] => []
  | sp :: rest => trackLine sp.num :: indexLine sp.mm sp.ss sp.ff :: cueSpecLines rest

/-- Newline joining, the inverse of splitlines on nonempty newline-free lines. -/
def joinNL : List PyStr → PyStr
  | [] => []
  | [l] => l
  | l :: rest => l ++ '\n' :: joinNL rest

/-- The whole cue text for a FILE header followed by the given track specifications. -/
def buildCue (file ft : PyStr) (specs : List CueSpec) : PyStr :=
  joinNL (fileHeader file ft :: cueSpecLines specs)

/-- The start seconds denoted by a generated INDEX 01 timestamp. -/
def specStart (sp : CueSpec) : ℚ := 60 * sp.mm + sp.ss + (sp.ff : ℚ) / 100

/-- Lines free of the newline characters recognised by splitlines. -/
def noNL (s : PyStr) : Prop := '\n' ∉ s ∧ '\r' ∉ s

instance (s : PyStr) : Decidable (noNL s) := by unfold noNL; infer_instance

/-- The track record parse_cue builds from one generated specification. -/
def builtTrack (g : GeneralInfo) (sp : CueSpec) : Track :=
  { mkTrack g (sp.num : ℤ) with start := some (specStart sp) }

/-- The expected final track list: every track except the last carries the difference
of successive starts as its duration. -/
def withDur (g : GeneralInfo) : List CueSpec → List Track
  | [] => []
  | [sp] => [builtTrack g sp]
  | sp :: sp2 :: rest =>
    { builtTrack g sp with duration := some (specStart sp2 - specStart sp) }
      :: withDur g (sp2 :: rest)

/-- Invariant: the file_type seen so far is absent or BINARY. -/
def binaryOnly (g : GeneralInfo) : Prop :=
  g.file_type = none ∨ g.file_type = some "BINARY".data

/-- Character-level effect of safe_name. -/
def sanChar (c : Char) : Char := if c ∈ illegalChars then '_' else c

/-- A concrete track record used by the witnesses for the command-synthesis claims. -/
def sampleTrack : Track :=
  { artist := some "P".data, title := some "T".data, album := some "A".data,
    track := 1, start := some 0 }

/-- Fixture: the first track of the C4 example, as the parser would produce it. -/
def c4track1 : Track :=
  { artist := some "Artist".data, title := some "Song One".data, album := some "Album".data,
    track := 1, start := some 0, duration := some (251 / 2 : ℚ) }

/-- Fixture: the second (last) track of the C4 example: start 125.5, no duration. -/
def c4track2 : Track :=
  { artist := some "Artist".data, title := some "Song Two".data, album := some "Album".data,
    track := 2, start := some (251 / 2 : ℚ) }

/-- Fixture: cue text whose only TRACK directive is not followed by an INDEX 01 line. -/
def c6text : PyStr :=
  ("PERFORMER \"P\"\nTITLE \"Al\"\nFILE \"f.wav\" WAVE\n  TRACK 01 AUDIO\n    TITLE \"T\"").data

/-- Fixture: the general dictionary parse_cue builds from c6text. -/
def c6general : GeneralInfo :=
  { artist := some "P".data, album := some "Al".data,
    file := some "f.wav".data, file_type := some "WAVE".data }

/-- Fixture: the single start-less track parse_cue builds from c6text. -/
def c6track : Track :=
  { artist := some "P".data, album := some "Al".data, file := some "f.wav".data,
    file_type := some "WAVE".data, track := 1, title := some "T".data }

/-- Substring occurrence check (Python's "in" on strings). -/
def containsSub (needle : PyStr) : PyStr → Bool
  | [] => needle.isEmpty
  | c :: rest => needle.isPrefixOf (c :: rest) || containsSub needle rest

/-- Fixture: a track titled "A: B". -/
def c7track : Track :=
  { artist := some "P".data, title := some "A: B".data, album := some "Al".data,
    track := 1, start := some 0 }

/-! Lemmas about the string primitives. -/

lemma pySplitC_eq_single (sep : Char) (l : PyStr) (h : sep ∉ l) : pySplitC sep l = [l] := by
  induction l with
  | nil => rfl
  | cons x xs ih =>
    have hx : ¬x = sep := by rintro rfl; exact h (List.mem_cons_self _ _)
    have h' : sep ∉ xs := fun hm => h (List.mem_cons_of_mem _ hm)
    simp [pySplitC, hx, ih h']

lemma pySplitC_append_cons (sep : Char) (xs ys : PyStr) (h : sep ∉ xs) :
    pySplitC sep (xs ++ sep :: ys) = xs :: pySplitC sep ys := by
  induction xs with
  | nil => simp [pySplitC]
  | cons x l ih =>
    have hx : ¬x = sep := by rintro rfl; exact h (List.mem_cons_self _ _)
    have h' : sep ∉ l := fun hm => h (List.mem_cons_of_mem _ hm)
    simp only [List.cons_append, pySplitC, hx, if_false]
    rw [List.append_eq, ih h']

lemma joinWith_single (sep : PyStr) (x : PyStr) : joinWith sep [x] = x := rfl

/-- Right-stripping leaves a list alone when its last block has no trailing whitespace. -/
lemma stripRight_of_last (xs l : PyStr) (hl : l ≠ [])
    (h : ∀ c ∈ l, pyWs c = false) :
    ((xs ++ l).reverse.dropWhile pyWs).reverse = xs ++ l := by
  rcases List.eq_nil_or_concat l with rfl | ⟨l2, b, rfl⟩
  · exact absurd rfl hl
  · have hb : pyWs b = false := h b (by simp)
    simp [List.reverse_append, List.dropWhile_cons, hb, List.append_assoc]

/-! Lemmas about decimal rendering and parsing. -/

lemma digitChar_isDigit (n : ℕ) : (digitChar n).isDigit = true := by
  unfold digitChar
  split <;> rfl

lemma natToCharsAux_ne_nil (fuel n : ℕ) (h : n < fuel) : natToCharsAux fuel n ≠ [] := by
  cases fuel with
  | zero => omega
  | succ fuel =>
    unfold natToCharsAux
    split
    · simp
    · simp

lemma natToChars_ne_nil (n : ℕ) : natToChars n ≠ [] :=
  natToCharsAux_ne_nil _ _ (Nat.lt_succ_self n)

lemma natToCharsAux_all_digit (fuel n : ℕ) :
    ∀ c ∈ natToCharsAux fuel n, c.isDigit = true := by
  induction fuel generalizing n with
  | zero => intro c hc; simp [natToCharsAux] at hc
  | succ fuel ih =>
    intro c hc
    unfold natToCharsAux at hc
    by_cases h : n < 10
    · rw [if_pos h] at hc
      simp at hc
      exact hc ▸ digitChar_isDigit n
    · rw [if_neg h] at hc
      rcases List.mem_append.mp hc with h1 | h1
      · exact ih _ _ h1
      · simp at h1
        exact h1 ▸ digitChar_isDigit (n % 10)

lemma natToChars_all_digit (n : ℕ) : ∀ c ∈ natToChars n, c.isDigit = true :=
  natToCharsAux_all_digit _ _

lemma digit_not_space (c : Char) (h : c.isDigit = true) : ¬c = ' ' := by
  rintro rfl; simp [Char.isDigit] at h

lemma digit_not_colon (c : Char) (h : c.isDigit = true) : ¬c = ':' := by
  rintro rfl; simp [Char.isDigit] at h

lemma digit_not_quote (c : Char) (h : c.isDigit = true) : ¬c = '"' := by
  rintro rfl; simp [Char.isDigit] at h

lemma digit_not_ws (c : Char) (h : c.isDigit = true) : pyWs c = false := by
  have h1 : ¬c = ' ' := by rintro rfl; simp [Char.isDigit] at h
  have h2 : ¬c = '\t' := by rintro rfl; simp [Char.isDigit] at h
  have h3 : ¬c = '\n' := by rintro rfl; simp [Char.isDigit] at h
  have h4 : ¬c = '\r' := by rintro rfl; simp [Char.isDigit] at h
  have h5 : ¬c = '\x0b' := by rintro rfl; simp [Char.isDigit] at h
  have h6 : ¬c = '\x0c' := by rintro rfl; simp [Char.isDigit] at h
  simp [pyWs, h1, h2, h3, h4, h5, h6]

lemma space_not_mem_natToChars (n : ℕ) : ' ' ∉ natToChars n := fun h =>
  digit_not_space _ (natToChars_all_digit n _ h) rfl

lemma colon_not_mem_natToChars (n : ℕ) : ':' ∉ natToChars n := fun h =>
  digit_not_colon _ (natToChars_all_digit n _ h) rfl

lemma quote_not_mem_natToChars (n : ℕ) : '"' ∉ natToChars n := fun h =>
  digit_not_quote _ (natToChars_all_digit n _ h) rfl

lemma charVal_digitChar (n : ℕ) (h : n < 10) : charVal (digitChar n) = n := by
  interval_cases n <;> rfl

lemma natToCharsAux_foldl (fuel n : ℕ) (h : n < fuel) (a : ℕ) :
    (natToCharsAux fuel n).foldl (fun a c => 10 * a + charVal c) a = a * 10 ^ (natToCharsAux fuel n).length + n := by
  induction fuel generalizing n a with
  | zero => omega
  | succ fuel ih =>
    unfold natToCharsAux
    by_cases hn : n < 10
    · rw [if_pos hn]
      simp only [List.foldl_cons, List.foldl_nil, List.length_cons, List.length_nil]
      rw [charVal_digitChar n hn]
      ring
    · rw [if_neg hn]
      have hfuel : n / 10 < fuel :=
        lt_of_lt_of_le (Nat.div_lt_self (by omega) (by omega)) (by omega)
      rw [List.foldl_append, ih _ hfuel]
      simp only [List.foldl_cons, List.foldl_nil, List.length_append, List.length_cons,
        List.length_nil]
      rw [charVal_digitChar _ (Nat.mod_lt n (by omega))]
      have hdm : 10 * (n / 10) + n % 10 = n := Nat.div_add_mod n 10
      calc 10 * (a * 10 ^ (natToCharsAux fuel (n / 10)).length + n / 10) + n % 10
          = a * 10 ^ (natToCharsAux fuel (n / 10)).length * 10
              + (10 * (n / 10) + n % 10) := by ring
        _ = a * 10 ^ ((natToCharsAux fuel (n / 10)).length + (0 + 1)) + n := by
            rw [hdm, pow_succ]; ring_nf

lemma pyParseNat_natToChars (n : ℕ) : pyParseNat (natToChars n) = some n := by
  unfold pyParseNat
  rw [if_pos]
  · have := natToCharsAux_foldl (n + 1) n (Nat.lt_succ_self n) 0
    rw [natToChars, this]
    simp
  · simp only [Bool.and_eq_true, Bool.not_eq_true']
    constructor
    · rw [List.isEmpty_eq_false_iff_exists_mem]
      rcases List.exists_mem_of_ne_nil _ (natToChars_ne_nil n) with ⟨c, hc⟩
      exact ⟨c, hc⟩
    · rw [List.all_eq_true]
      exact natToChars_all_digit n

lemma pyParseInt_natToChars (n : ℕ) : pyParseInt (natToChars n) = some (n : ℤ) := by
  have hall := natToChars_all_digit n
  have hpn := pyParseNat_natToChars n
  cases hh : natToChars n with
  | nil => exact absurd hh (natToChars_ne_nil n)
  | cons c rest =>
    rw [hh] at hpn
    have hc : c.isDigit = true := hall c (hh ▸ List.mem_cons_self _ _)
    have hcne : ¬c = '-' := by rintro rfl; simp [Char.isDigit] at hc
    unfold pyParseInt
    split
    · rename_i rest2 heq
      injection heq with h1 h2
      exact absurd h1 hcne
    · rw [hpn]
      rfl

/-! Reduction lemmas for the Except monad, used to evaluate the do-blocks. -/

@[simp] lemma exceptPure (a : α) : (pure a : Except String α) = Except.ok a := rfl

@[simp] lemma okBind (a : α) (f : α → Except String β) :
    (Except.ok a >>= f : Except String β) = f a := rfl

@[simp] lemma errorBind (e : String) (f : α → Except String β) :
    (Except.error e >>= f : Except String β) = Except.error e := rfl

/-! Evaluation of the parser primitives on generated cue lines. -/

lemma stripRight_last (xs l : PyStr) (b : Char) (hb : l.getLast? = some b)
    (h : pyWs b = false) : ((xs ++ l).reverse.dropWhile pyWs).reverse = xs ++ l := by
  rcases List.eq_nil_or_concat l with rfl | ⟨l2, c, rfl⟩
  · simp at hb
  · rw [List.concat_eq_append] at hb ⊢
    rw [List.getLast?_concat] at hb
    obtain rfl : c = b := by injection hb
    simp [List.reverse_append, List.dropWhile_cons, h, List.append_assoc]

lemma startsWith_append (p s : PyStr) : pyStartsWith (p ++ s) p = true := by
  simp [pyStartsWith]

lemma pyStrip_trackLine (n : ℕ) :
    pyStrip (trackLine n) = "TRACK ".data ++ natToChars n ++ " AUDIO".data := by
  have h1 : trackLine n = ' ' :: ' ' :: ("TRACK ".data ++ natToChars n ++ " AUDIO".data) := rfl
  unfold pyStrip
  rw [h1]
  have h2 : List.dropWhile pyWs
      (' ' :: ' ' :: ("TRACK ".data ++ natToChars n ++ " AUDIO".data))
      = "TRACK ".data ++ natToChars n ++ " AUDIO".data := rfl
  rw [h2]
  exact stripRight_last _ (" AUDIO".data) 'O' rfl rfl

lemma pyStrip_indexLine (m s f : ℕ) :
    pyStrip (indexLine m s f)
      = "INDEX 01 ".data ++ natToChars m ++ ':' :: natToChars s ++ ':' :: natToChars f := by
  have h1 : indexLine m s f = ' ' :: ' ' :: ' ' :: ' ' ::
      ("INDEX 01 ".data ++ natToChars m ++ ':' :: natToChars s ++ ':' :: natToChars f) := rfl
  unfold pyStrip
  rw [h1]
  have h2 : List.dropWhile pyWs (' ' :: ' ' :: ' ' :: ' ' ::
      ("INDEX 01 ".data ++ natToChars m ++ ':' :: natToChars s ++ ':' :: natToChars f))
      = "INDEX 01 ".data ++ natToChars m ++ ':' :: natToChars s ++ ':' :: natToChars f := rfl
  rw [h2]
  have h3 : "INDEX 01 ".data ++ natToChars m ++ ':' :: natToChars s ++ ':' :: natToChars f
      = ("INDEX 01 ".data ++ natToChars m ++ ':' :: natToChars s ++ [':']) ++ natToChars f := by
    simp [List.append_assoc]
  rw [h3]
  rcases List.eq_nil_or_concat (natToChars f) with hnil | ⟨l2, b, hsplit⟩
  · exact absurd hnil (natToChars_ne_nil f)
  · rw [List.concat_eq_append] at hsplit
    rw [hsplit]
    refine stripRight_last _ _ b (List.getLast?_concat _) ?_
    apply digit_not_ws
    refine natToChars_all_digit f b ?_
    rw [hsplit]
    simp

lemma tokens_trackLine (n : ℕ) :
    pySplitC ' ' ("TRACK ".data ++ natToChars n ++ " AUDIO".data)
      = ["TRACK".data, natToChars n, "AUDIO".data] := by
  have e1 : "TRACK ".data ++ natToChars n ++ " AUDIO".data
      = "TRACK".data ++ ' ' :: (natToChars n ++ ' ' :: "AUDIO".data) := by
    simp [List.append_assoc]
  rw [e1, pySplitC_append_cons _ _ _ (by decide),
    pySplitC_append_cons _ _ _ (space_not_mem_natToChars n),
    pySplitC_eq_single _ _ (by decide)]

lemma space_not_mem_stamp (m s f : ℕ) :
    ' ' ∉ natToChars m ++ ':' :: natToChars s ++ ':' :: natToChars f := by
  intro h
  simp only [List.mem_append, List.mem_cons] at h
  rcases h with (h | h | h) | h | h
  · exact space_not_mem_natToChars m h
  · simp at h
  · exact space_not_mem_natToChars s h
  · simp at h
  · exact space_not_mem_natToChars f h

lemma tokens_indexLine (m s f : ℕ) :
    pySplitC ' ' ("INDEX 01 ".data ++ natToChars m ++ ':' :: natToChars s ++ ':' :: natToChars f)
      = ["INDEX".data, "01".data,
          natToChars m ++ ':' :: natToChars s ++ ':' :: natToChars f] := by
  have e1 : "INDEX 01 ".data ++ natToChars m ++ ':' :: natToChars s ++ ':' :: natToChars f
      = "INDEX".data ++ ' ' :: ("01".data ++ ' ' ::
          (natToChars m ++ ':' :: natToChars s ++ ':' :: natToChars f)) := by
    simp [List.append_assoc]
  rw [e1, pySplitC_append_cons _ _ _ (by decide),
    pySplitC_append_cons _ _ _ (by decide),
    pySplitC_eq_single _ _ (space_not_mem_stamp m s f)]

lemma removeChar_quote_natToChars (n : ℕ) : removeChar '"' (natToChars n) = natToChars n := by
  unfold removeChar
  rw [List.filter_eq_self]
  intro c hc
  simpa using digit_not_quote c (natToChars_all_digit n c hc)

lemma removeChar_quote_stamp (m s f : ℕ) :
    removeChar '"' (natToChars m ++ ':' :: natToChars s ++ ':' :: natToChars f)
      = natToChars m ++ ':' :: natToChars s ++ ':' :: natToChars f := by
  unfold removeChar
  rw [List.filter_eq_self]
  intro c hc
  simp only [List.mem_append, List.mem_cons] at hc
  rcases hc with (h | h | h) | h | h
  · simpa using digit_not_quote c (natToChars_all_digit m c h)
  · subst h; decide
  · simpa using digit_not_quote c (natToChars_all_digit s c h)
  · subst h; decide
  · simpa using digit_not_quote c (natToChars_all_digit f c h)

lemma colonSplit_stamp (m s f : ℕ) :
    pySplitC ':' (natToChars m ++ ':' :: natToChars s ++ ':' :: natToChars f)
      = [natToChars m, natToChars s, natToChars f] := by
  have e : natToChars m ++ ':' :: natToChars s ++ ':' :: natToChars f
      = natToChars m ++ ':' :: (natToChars s ++ ':' :: natToChars f) := by
    simp [List.append_assoc]
  rw [e, pySplitC_append_cons _ _ _ (colon_not_mem_natToChars m),
    pySplitC_append_cons _ _ _ (colon_not_mem_natToChars s),
    pySplitC_eq_single _ _ (colon_not_mem_natToChars f)]

lemma parseIndexTime_indexLine (m s f : ℕ) :
    parseIndexTime (indexLine m s f) = .ok (60 * m + s + (f : ℚ) / 100) := by
  unfold parseIndexTime
  rw [pyStrip_indexLine, tokens_indexLine]
  simp only [List.drop_succ_cons, List.drop_zero]
  rw [joinWith_single, removeChar_quote_stamp, colonSplit_stamp]
  simp only [List.mapM_cons, List.mapM_nil]
  have hm : pyInt (natToChars m) = .ok (m : ℤ) := by
    unfold pyInt; rw [pyParseInt_natToChars]
  have hs : pyInt (natToChars s) = .ok (s : ℤ) := by
    unfold pyInt; rw [pyParseInt_natToChars]
  have hf : pyInt (natToChars f) = .ok (f : ℤ) := by
    unfold pyInt; rw [pyParseInt_natToChars]
  rw [hm, hs, hf]
  simp [pyGet]

/-! Evaluation of the parser's per-line step on generated cue lines. -/

lemma headerStep_trackLine (g : GeneralInfo) (n : ℕ) : headerStep g (trackLine n) = g := rfl

lemma headerStep_indexLine (g : GeneralInfo) (m s f : ℕ) :
    headerStep g (indexLine m s f) = g := rfl

lemma headerStep_index00Line (g : GeneralInfo) (m s f : ℕ) :
    headerStep g (index00Line m s f) = g := rfl

lemma trackLine_shape (n : ℕ) :
    trackLine n = "  TRACK ".data ++ (natToChars n ++ " AUDIO".data) := by
  simp [trackLine, List.append_assoc]

lemma indexLine_shape (m s f : ℕ) :
    indexLine m s f
      = "    INDEX 01 ".data ++ (natToChars m ++ (':' :: natToChars s ++ ':' :: natToChars f)) := by
  simp [indexLine, List.append_assoc]

lemma trackStep_trackLine (g : GeneralInfo) (tracks : List Track) (n : ℕ) :
    trackStep g tracks (trackLine n) = .ok (tracks ++ [mkTrack g (n : ℤ)]) := by
  have h1 : pyStartsWith (trackLine n) "  TRACK ".data = true := by
    rw [trackLine_shape]; exact startsWith_append _ _
  have h2 : pyStartsWith (trackLine n) "    TITLE ".data = false := rfl
  have h3 : pyStartsWith (trackLine n) "    PERFORMER ".data = false := rfl
  have h4 : pyStartsWith (trackLine n) "    INDEX 01 ".data = false := rfl
  unfold trackStep
  rw [h1, h2, h3, h4]
  simp only [eq_self_iff_true, Bool.false_eq_true, if_true, if_false]
  rw [pyStrip_trackLine, tokens_trackLine]
  have hget : pyGet ["TRACK".data, natToChars n, "AUDIO".data] 1 = .ok (natToChars n) := rfl
  have hint : pyInt (natToChars n) = .ok (n : ℤ) := by
    unfold pyInt; rw [pyParseInt_natToChars]
  rw [hget]
  simp only [okBind]
  rw [hint]
  simp only [okBind, exceptPure]

lemma trackStep_indexLine (g : GeneralInfo) (tracks : List Track) (t : Track) (m s f : ℕ) :
    trackStep g (tracks ++ [t]) (indexLine m s f)
      = .ok (tracks ++ [{ t with start := some (60 * m + s + (f : ℚ) / 100) }]) := by
  have h1 : pyStartsWith (indexLine m s f) "  TRACK ".data = false := rfl
  have h2 : pyStartsWith (indexLine m s f) "    TITLE ".data = false := rfl
  have h3 : pyStartsWith (indexLine m s f) "    PERFORMER ".data = false := rfl
  have h4 : pyStartsWith (indexLine m s f) "    INDEX 01 ".data = true := by
    rw [indexLine_shape]; exact startsWith_append _ _
  unfold trackStep
  rw [h1, h2, h3, h4]
  simp only [eq_self_iff_true, Bool.false_eq_true, if_true, if_false]
  simp only [okBind, exceptPure]
  rw [parseIndexTime_indexLine]
  simp only [okBind]
  unfold setLast
  rw [List.getLast?_concat, List.dropLast_concat]
  rfl

lemma trackStep_index00Line (g : GeneralInfo) (tracks : List Track) (m s f : ℕ) :
    trackStep g tracks (index00Line m s f) = .ok tracks := rfl

lemma lineStep_trackLine (g : GeneralInfo) (tracks : List Track) (n : ℕ)
    (hg : gateOpen g = true) :
    lineStep (g, tracks) (trackLine n) = .ok (g, tracks ++ [mkTrack g (n : ℤ)]) := by
  unfold lineStep
  simp only [headerStep_trackLine, hg, if_true, trackStep_trackLine, okBind, exceptPure]

lemma lineStep_indexLine (g : GeneralInfo) (tracks : List Track) (t : Track) (m s f : ℕ)
    (hg : gateOpen g = true) :
    lineStep (g, tracks ++ [t]) (indexLine m s f)
      = .ok (g, tracks ++ [{ t with start := some (60 * m + s + (f : ℚ) / 100) }]) := by
  unfold lineStep
  simp only [headerStep_indexLine, hg, if_true, trackStep_indexLine, okBind, exceptPure]

lemma lineStep_index00Line (g : GeneralInfo) (tracks : List Track) (m s f : ℕ) :
    lineStep (g, tracks) (index00Line m s f) = .ok (g, tracks) := by
  unfold lineStep
  simp only [headerStep_index00Line]
  cases hg : gateOpen g
  · simp only [hg, Bool.false_eq_true, if_false, exceptPure]
  · simp only [hg, if_true, trackStep_index00Line, okBind, exceptPure]

/-! Evaluation of the FILE directive line. -/

lemma fileHeader_shape (file ft : PyStr) :
    fileHeader file ft = "FILE ".data ++ ('"' :: (file ++ '"' :: ' ' :: ft)) := rfl

lemma tokens_fileHeader (file ft : PyStr) (hf : ' ' ∉ file) (hft : ' ' ∉ ft) :
    pySplitC ' ' (fileHeader file ft) = ["FILE".data, '"' :: file ++ ['"'], ft] := by
  have e1 : fileHeader file ft
      = "FILE".data ++ ' ' :: (('"' :: file ++ ['"']) ++ ' ' :: ft) := by
    rw [fileHeader_shape]
    simp [List.append_assoc]
  have hq : ' ' ∉ '"' :: file ++ ['"'] := by
    intro h
    simp only [List.cons_append, List.mem_cons, List.mem_append, List.mem_singleton] at h
    rcases h with h | h | h
    · exact absurd h.symm (by decide)
    · exact hf h
    · exact absurd h.symm (by decide)
  rw [e1, pySplitC_append_cons _ _ _ (by decide),
    pySplitC_append_cons _ _ _ hq, pySplitC_eq_single _ _ hft]

lemma removeChar_quote_quoted (file : PyStr) :
    removeChar '"' ('"' :: file ++ ['"']) = removeChar '"' file := by
  simp [removeChar, List.filter_append]

lemma headerStep_fileHeader (g : GeneralInfo) (file ft : PyStr)
    (hf : ' ' ∉ file) (hft : ' ' ∉ ft) :
    headerStep g (fileHeader file ft)
      = { g with file := some (removeChar '"' file), file_type := some ft } := by
  have h1 : pyStartsWith (fileHeader file ft) "REM GENRE ".data = false := rfl
  have h2 : pyStartsWith (fileHeader file ft) "REM DATE ".data = false := rfl
  have h3 : pyStartsWith (fileHeader file ft) "PERFORMER ".data = false := rfl
  have h4 : pyStartsWith (fileHeader file ft) "TITLE ".data = false := rfl
  have h5 : pyStartsWith (fileHeader file ft) "FILE ".data = true := by
    rw [fileHeader_shape]; exact startsWith_append _ _
  unfold headerStep
  rw [h1, h2, h3, h4, h5]
  simp only [Bool.false_eq_true, if_false, if_true]
  rw [tokens_fileHeader file ft hf hft]
  have e3 : joinWith [' '] ((["FILE".data, '"' :: file ++ ['"'], ft].drop 1).dropLast)
      = '"' :: file ++ ['"'] := rfl
  rw [e3, removeChar_quote_quoted]
  rfl

lemma trackStep_fileHeader (g : GeneralInfo) (tracks : List Track) (file ft : PyStr) :
    trackStep g tracks (fileHeader file ft) = .ok tracks := rfl

lemma lineStep_fileHeader (g : GeneralInfo) (tracks : List Track) (file ft : PyStr)
    (hf : ' ' ∉ file) (hft : ' ' ∉ ft) :
    lineStep (g, tracks) (fileHeader file ft)
      = .ok ({ g with file := some (removeChar '"' file), file_type := some ft }, tracks) := by
  unfold lineStep
  simp only [headerStep_fileHeader g file ft hf hft]
  cases hg : gateOpen { g with file := some (removeChar '"' file), file_type := some ft }
  · simp only [hg, Bool.false_eq_true, if_false, exceptPure]
  · simp only [hg, if_true, trackStep_fileHeader, okBind, exceptPure]

/-! Splitlines undoes newline joining on nonempty newline-free lines. -/

lemma pySplitlinesGo_cons_other (c : Char) (rest acc : List Char)
    (hc1 : ¬c = '\n') (hc2 : ¬c = '\r') :
    pySplitlinesGo (c :: rest) acc = pySplitlinesGo rest (c :: acc) := by
  rw [pySplitlinesGo.eq_def]
  split
  · rename_i heq
    exact absurd heq (by simp)
  · rename_i heq
    injection heq with he1 he2
    exact absurd he1 hc2
  · rename_i heq
    injection heq with he1 he2
    exact absurd he1 hc2
  · rename_i heq
    injection heq with he1 he2
    exact absurd he1 hc1
  · rename_i heq
    injection heq with he1 he2
    subst he1
    subst he2
    rfl

lemma pySplitlinesGo_newline (rest acc : List Char) :
    pySplitlinesGo ('\n' :: rest) acc = acc.reverse :: pySplitlinesGo rest [] := rfl

lemma pySplitlinesGo_plain (l : PyStr) (acc : List Char) (h : noNL l)
    (hne : acc = [] → l ≠ []) : pySplitlinesGo l acc = [acc.reverse ++ l] := by
  induction l generalizing acc with
  | nil =>
    have hna : ¬acc = [] := fun he => (hne he) rfl
    cases acc with
    | nil => exact absurd rfl hna
    | cons a as =>
      show [(a :: as).reverse] = [(a :: as).reverse ++ []]
      simp
  | cons c l ih =>
    have hc1 : ¬c = '\n' := fun he => h.1 (he ▸ List.mem_cons_self _ _)
    have hc2 : ¬c = '\r' := fun he => h.2 (he ▸ List.mem_cons_self _ _)
    have h' : noNL l :=
      ⟨fun hm => h.1 (List.mem_cons_of_mem _ hm), fun hm => h.2 (List.mem_cons_of_mem _ hm)⟩
    rw [pySplitlinesGo_cons_other c l acc hc1 hc2, ih (c :: acc) h' (by simp)]
    simp

lemma pySplitlinesGo_append_newline (l rest : PyStr) (acc : List Char) (h : noNL l) :
    pySplitlinesGo (l ++ '\n' :: rest) acc
      = (acc.reverse ++ l) :: pySplitlinesGo rest [] := by
  induction l generalizing acc with
  | nil =>
    rw [List.nil_append, pySplitlinesGo_newline]
    simp
  | cons c l ih =>
    have hc1 : ¬c = '\n' := fun he => h.1 (he ▸ List.mem_cons_self _ _)
    have hc2 : ¬c = '\r' := fun he => h.2 (he ▸ List.mem_cons_self _ _)
    have h' : noNL l :=
      ⟨fun hm => h.1 (List.mem_cons_of_mem _ hm), fun hm => h.2 (List.mem_cons_of_mem _ hm)⟩
    rw [List.cons_append, pySplitlinesGo_cons_other c _ acc hc1 hc2, ih (c :: acc) h']
    simp

lemma pySplitlines_joinNL (lines : List PyStr) (h : ∀ l ∈ lines, noNL l ∧ l ≠ []) :
    pySplitlines (joinNL lines) = lines := by
  induction lines with
  | nil => rfl
  | cons l rest ih =>
    have hl := h l (List.mem_cons_self _ _)
    cases rest with
    | nil =>
      show pySplitlinesGo (joinNL [l]) [] = [l]
      rw [show joinNL [l] = l from rfl,
        pySplitlinesGo_plain l [] hl.1 (fun _ => hl.2)]
      simp
    | cons l2 rest2 =>
      show pySplitlinesGo (joinNL (l :: l2 :: rest2)) [] = l :: l2 :: rest2
      rw [show joinNL (l :: l2 :: rest2) = l ++ '\n' :: joinNL (l2 :: rest2) from rfl,
        pySplitlinesGo_append_newline _ _ _ hl.1]
      have ih2 := ih (fun x hx => h x (List.mem_cons_of_mem _ hx))
      rw [show pySplitlinesGo (joinNL (l2 :: rest2)) [] = pySplitlines (joinNL (l2 :: rest2)) from rfl,
        ih2]
      simp

/-! The main fold over generated track directives. -/

lemma foldlM_cueSpecLines (g : GeneralInfo) (hg : gateOpen g = true)
    (specs : List CueSpec) (acc : List Track) :
    (cueSpecLines specs).foldlM lineStep (g, acc)
      = .ok (g, acc ++ specs.map (builtTrack g)) := by
  induction specs generalizing acc with
  | nil => simp [cueSpecLines]
  | cons sp rest ih =>
    rw [show cueSpecLines (sp :: rest)
        = trackLine sp.num :: indexLine sp.mm sp.ss sp.ff :: cueSpecLines rest from rfl]
    rw [List.foldlM_cons, lineStep_trackLine g acc sp.num hg]
    simp only [okBind]
    rw [List.foldlM_cons, lineStep_indexLine g acc (mkTrack g (sp.num : ℤ)) sp.mm sp.ss sp.ff hg]
    simp only [okBind]
    rw [ih]
    simp only [List.append_assoc, List.singleton_append, List.map_cons]
    rfl

lemma durationPass_builtTracks (g : GeneralInfo) (specs : List CueSpec) :
    durationPass (specs.map (builtTrack g)) = .ok (withDur g specs) := by
  induction specs with
  | nil => rfl
  | cons sp rest ih =>
    cases rest with
    | nil => rfl
    | cons sp2 rest2 =>
      rw [show (sp :: sp2 :: rest2).map (builtTrack g)
          = builtTrack g sp :: builtTrack g sp2 :: rest2.map (builtTrack g) from rfl]
      rw [durationPass]
      rw [show pyStart (builtTrack g sp2) = .ok (specStart sp2) from rfl]
      simp only [okBind]
      rw [show pyStart (builtTrack g sp) = .ok (specStart sp) from rfl]
      simp only [okBind]
      rw [show builtTrack g sp2 :: rest2.map (builtTrack g)
          = (sp2 :: rest2).map (builtTrack g) from rfl, ih]
      simp only [okBind, exceptPure]
      rfl

lemma withDur_length (g : GeneralInfo) (specs : List CueSpec) :
    (withDur g specs).length = specs.length := by
  induction specs with
  | nil => rfl
  | cons sp rest ih =>
    cases rest with
    | nil => rfl
    | cons sp2 rest2 =>
      rw [withDur]
      simp only [List.length_cons]
      rw [ih]
      simp

lemma withDur_get? (g : GeneralInfo) (specs : List CueSpec) (i : ℕ) (sp : CueSpec)
    (h : specs.get? i = some sp) :
    (withDur g specs).get? i
      = some { builtTrack g sp with
          duration := (specs.get? (i + 1)).map fun sp2 => specStart sp2 - specStart sp } := by
  induction specs generalizing i with
  | nil => simp at h
  | cons sp1 rest ih =>
    cases rest with
    | nil =>
      cases i with
      | zero =>
        obtain rfl : sp1 = sp := by simpa using h
        rfl
      | succ j => simp at h
    | cons sp2 rest2 =>
      cases i with
      | zero =>
        obtain rfl : sp1 = sp := by simpa using h
        rfl
      | succ j =>
        rw [withDur]
        have hj : (sp2 :: rest2).get? j = some sp := by simpa using h
        rw [show ((({ builtTrack g sp1 with
            duration := some (specStart sp2 - specStart sp1) } : Track)
              :: withDur g (sp2 :: rest2)).get? (j + 1))
            = (withDur g (sp2 :: rest2)).get? j from rfl]
        rw [ih _ hj]
        rfl

/-! Newline-freedom of the generated lines. -/

lemma noNL_natToChars (n : ℕ) : noNL (natToChars n) := by
  constructor
  · intro hm
    exact absurd (natToChars_all_digit n _ hm) (by decide)
  · intro hm
    exact absurd (natToChars_all_digit n _ hm) (by decide)

lemma noNL_trackLine (n : ℕ) : noNL (trackLine n) := by
  unfold trackLine noNL
  constructor
  · intro hm
    simp only [List.mem_append] at hm
    rcases hm with (hm | hm) | hm
    · exact absurd hm (by decide)
    · exact absurd (natToChars_all_digit n _ hm) (by decide)
    · exact absurd hm (by decide)
  · intro hm
    simp only [List.mem_append] at hm
    rcases hm with (hm | hm) | hm
    · exact absurd hm (by decide)
    · exact absurd (natToChars_all_digit n _ hm) (by decide)
    · exact absurd hm (by decide)

lemma noNL_indexLine (m s f : ℕ) : noNL (indexLine m s f) := by
  unfold indexLine noNL
  constructor
  · intro hm
    simp only [List.mem_append, List.mem_cons] at hm
    rcases hm with ((hm | hm) | hm | hm) | hm | hm
    · exact absurd hm (by decide)
    · exact absurd (natToChars_all_digit m _ hm) (by decide)
    · exact absurd hm (by decide)
    · exact absurd (natToChars_all_digit s _ hm) (by decide)
    · exact absurd hm (by decide)
    · exact absurd (natToChars_all_digit f _ hm) (by decide)
  · intro hm
    simp only [List.mem_append, List.mem_cons] at hm
    rcases hm with ((hm | hm) | hm | hm) | hm | hm
    · exact absurd hm (by decide)
    · exact absurd (natToChars_all_digit m _ hm) (by decide)
    · exact absurd hm (by decide)
    · exact absurd (natToChars_all_digit s _ hm) (by decide)
    · exact absurd hm (by decide)
    · exact absurd (natToChars_all_digit f _ hm) (by decide)

lemma noNL_fileHeader (file ft : PyStr) (hf : noNL file) (hft : noNL ft) :
    noNL (fileHeader file ft) := by
  unfold fileHeader noNL
  constructor
  · intro hm
    simp only [List.mem_append, List.mem_cons] at hm
    rcases hm with (hm | hm) | hm | hm | hm
    · exact absurd hm (by decide)
    · exact hf.1 hm
    · exact absurd hm (by decide)
    · exact absurd hm (by decide)
    · exact hft.1 hm
  · intro hm
    simp only [List.mem_append, List.mem_cons] at hm
    rcases hm with (hm | hm) | hm | hm | hm
    · exact absurd hm (by decide)
    · exact hf.2 hm
    · exact absurd hm (by decide)
    · exact absurd hm (by decide)
    · exact hft.2 hm

lemma cueSpecLines_wellFormed (specs : List CueSpec) :
    ∀ l ∈ cueSpecLines specs, noNL l ∧ l ≠ [] := by
  induction specs with
  | nil => intro l hl; simp [cueSpecLines] at hl
  | cons sp rest ih =>
    intro l hl
    rw [cueSpecLines] at hl
    rcases List.mem_cons.mp hl with rfl | hl2
    · exact ⟨noNL_trackLine sp.num, List.cons_ne_nil _ _⟩
    · rcases List.mem_cons.mp hl2 with rfl | hl3
      · exact ⟨noNL_indexLine sp.mm sp.ss sp.ff, List.cons_ne_nil _ _⟩
      · exact ih l hl3

lemma cueLines_wellFormed (file ft : PyStr) (hf : noNL file) (hft : noNL ft)
    (specs : List CueSpec) :
    ∀ l ∈ fileHeader file ft :: cueSpecLines specs, noNL l ∧ l ≠ [] := by
  intro l hl
  rcases List.mem_cons.mp hl with rfl | hl2
  · exact ⟨noNL_fileHeader file ft hf hft, List.cons_ne_nil _ _⟩
  · exact cueSpecLines_wellFormed specs l hl2

lemma parse_cue_buildCue (file ft : PyStr)
    (hfsp : ' ' ∉ file) (hftsp : ' ' ∉ ft) (hfnl : noNL file) (hftnl : noNL ft)
    (hbin : ft ≠ "BINARY".data) (specs : List CueSpec) :
    parse_cue (some (buildCue file ft specs))
      = .ok (0, { file := some (removeChar '"' file), file_type := some ft },
          withDur { file := some (removeChar '"' file), file_type := some ft } specs) := by
  have hsplit : pySplitlines (buildCue file ft specs)
      = fileHeader file ft :: cueSpecLines specs :=
    pySplitlines_joinNL _ (cueLines_wellFormed file ft hfnl hftnl specs)
  have hgate : gateOpen { file := some (removeChar '"' file), file_type := some ft } = true := by
    simp only [gateOpen, bne_iff_ne, ne_eq, decide_eq_true_eq]
    exact hbin
  have hinit : lineStep ({}, ([] : List Track)) (fileHeader file ft)
      = .ok ({ file := some (removeChar '"' file), file_type := some ft }, []) := by
    rw [lineStep_fileHeader {} [] file ft hfsp hftsp]
  have hsome : parse_cue (some (buildCue file ft specs))
      = ((pySplitlines (buildCue file ft specs)).foldlM lineStep ({}, []) >>= fun st =>
          durationPass st.2 >>= fun tracks => pure (0, st.1, tracks)) := rfl
  rw [hsome, hsplit, List.foldlM_cons, hinit]
  simp only [okBind]
  rw [foldlM_cueSpecLines _ hgate specs []]
  simp only [okBind, List.nil_append]
  rw [durationPass_builtTracks]
  simp only [okBind, exceptPure]

lemma withDur_cons_exists (g : GeneralInfo) (sp : CueSpec) (rest : List CueSpec) :
    ∃ hd tl, withDur g (sp :: rest) = hd :: tl := by
  cases rest with
  | nil => exact ⟨builtTrack g sp, [], rfl⟩
  | cons sp2 rest2 =>
    exact ⟨{ builtTrack g sp with duration := some (specStart sp2 - specStart sp) },
      withDur g (sp2 :: rest2), rfl⟩

lemma withDur_getLast_duration (g : GeneralInfo) (specs : List CueSpec) (t : Track)
    (h : (withDur g specs).getLast? = some t) : t.duration = none := by
  induction specs with
  | nil => simp [withDur] at h
  | cons sp rest ih =>
    cases rest with
    | nil =>
      rw [show withDur g [sp] = [builtTrack g sp] from rfl] at h
      simp only [List.getLast?_singleton, Option.some.injEq] at h
      rw [← h]
      rfl
    | cons sp2 rest2 =>
      rw [withDur] at h
      obtain ⟨hd, tl, he⟩ := withDur_cons_exists g sp2 rest2
      rw [he, List.getLast?_cons_cons, ← he] at h
      exact ih h

lemma get?_of_lt {α : Type} (l : List α) (i : ℕ) (h : i < l.length) :
    ∃ a, l.get? i = some a := by
  cases he : l.get? i with
  | none =>
    rw [List.get?_eq_none] at he
    omega
  | some a => exact ⟨a, rfl⟩

/-- C1: for every cue text holding a non-binary FILE directive followed by N TRACK
directives, each in turn followed by an INDEX 01 line, parse_cue returns status ok (0)
and exactly N tracks in order of appearance, each carrying its declared number and its
parsed start; every track except the last carries duration = next start - own start, and
the last track carries no duration field. -/
theorem c1_parse_cue_tracks (file ft : PyStr)
    (hfsp : ' ' ∉ file) (hftsp : ' ' ∉ ft) (hfnl : noNL file) (hftnl : noNL ft)
    (hbin : ft ≠ "BINARY".data) (specs : List CueSpec) :
    ∃ g tracks,
      parse_cue (some (buildCue file ft specs)) = .ok (0, g, tracks) ∧
      tracks.length = specs.length ∧
      (∀ i sp, specs.get? i = some sp → ∃ t, tracks.get? i = some t ∧
          t.track = (sp.num : ℤ) ∧ t.start = some (specStart sp)) ∧
      (∀ i t t2, tracks.get? i = some t → tracks.get? (i + 1) = some t2 →
          ∃ q q2, t.start = some q ∧ t2.start = some q2 ∧ t.duration = some (q2 - q)) ∧
      (∀ t, tracks.getLast? = some t → t.duration = none) := by
  refine ⟨{ file := some (removeChar '"' file), file_type := some ft },
    withDur { file := some (removeChar '"' file), file_type := some ft } specs,
    parse_cue_buildCue file ft hfsp hftsp hfnl hftnl hbin specs,
    withDur_length _ specs, ?_, ?_, ?_⟩
  · intro i sp hsp
    rw [withDur_get? _ specs i sp hsp]
    exact ⟨_, rfl, rfl, rfl⟩
  · intro i t t2 ht ht2
    have hlen := withDur_length
      { file := some (removeChar '"' file), file_type := some ft } specs
    have hi : i < specs.length := by
      by_contra hlt
      rw [List.get?_eq_none.mpr (by omega)] at ht
      cases ht
    have hi2 : i + 1 < specs.length := by
      by_contra hlt
      rw [List.get?_eq_none.mpr (by omega)] at ht2
      cases ht2
    obtain ⟨sp, hsp⟩ := get?_of_lt specs i hi
    obtain ⟨sp2, hsp2⟩ := get?_of_lt specs (i + 1) hi2
    rw [withDur_get? _ specs i sp hsp] at ht
    rw [withDur_get? _ specs (i + 1) sp2 hsp2] at ht2
    obtain rfl := (Option.some.injEq _ _).mp ht
    obtain rfl := (Option.some.injEq _ _).mp ht2
    refine ⟨specStart sp, specStart sp2, rfl, rfl, ?_⟩
    rw [show ({ builtTrack { file := some (removeChar '"' file), file_type := some ft } sp with
        duration := (specs.get? (i + 1)).map fun x => specStart x - specStart sp } : Track).duration
      = (specs.get? (i + 1)).map fun x => specStart x - specStart sp from rfl]
    rw [hsp2]
    rfl
  · intro t hlast
    exact withDur_getLast_duration _ specs t hlast

/-- Witness for C1 at a concrete two-track cue sheet. -/
theorem c1_parse_cue_tracks_witness :
    ∃ g tracks,
      parse_cue (some (buildCue "f.wav".data "WAVE".data
          [⟨1, 0, 0, 0⟩, ⟨2, 2, 5, 50⟩])) = .ok (0, g, tracks) ∧
      tracks.length = ([⟨1, 0, 0, 0⟩, ⟨2, 2, 5, 50⟩] : List CueSpec).length ∧
      (∀ i sp, ([⟨1, 0, 0, 0⟩, ⟨2, 2, 5, 50⟩] : List CueSpec).get? i = some sp →
          ∃ t, tracks.get? i = some t ∧
            t.track = (sp.num : ℤ) ∧ t.start = some (specStart sp)) ∧
      (∀ i t t2, tracks.get? i = some t → tracks.get? (i + 1) = some t2 →
          ∃ q q2, t.start = some q ∧ t2.start = some q2 ∧ t.duration = some (q2 - q)) ∧
      (∀ t, tracks.getLast? = some t → t.duration = none) :=
  c1_parse_cue_tracks "f.wav".data "WAVE".data (by decide) (by decide) (by decide)
    (by decide) (by decide) [⟨1, 0, 0, 0⟩, ⟨2, 2, 5, 50⟩]

/-- C2: under an open gate, an INDEX 01 line with timestamp MM:SS:FF (0 ≤ SS < 60,
0 ≤ FF < 100) sets the last track's start to exactly 60*MM + SS + FF/100 seconds, while
an INDEX 00 line with the same timestamp leaves the state unchanged. -/
theorem c2_index01_timestamp (g : GeneralInfo) (tracks : List Track) (t : Track)
    (m s f : ℕ) (hs : s < 60) (hf : f < 100) (hg : gateOpen g = true) :
    lineStep (g, tracks ++ [t]) (indexLine m s f)
      = .ok (g, tracks ++ [{ t with start := some (60 * m + s + (f : ℚ) / 100) }]) ∧
    lineStep (g, tracks ++ [t]) (index00Line m s f) = .ok (g, tracks ++ [t]) :=
  ⟨lineStep_indexLine g tracks t m s f hg,
    lineStep_index00Line g (tracks ++ [t]) m s f⟩

/-- Witness for C2 at the concrete timestamp 02:05:50 on a one-track state. -/
theorem c2_index01_timestamp_witness :
    lineStep ({ file_type := some "WAVE".data }, [] ++ [({ track := 1 } : Track)])
        (indexLine 2 5 50)
      = .ok ({ file_type := some "WAVE".data },
          [] ++ [{ ({ track := 1 } : Track) with
            start := some (60 * (2 : ℕ) + (5 : ℕ) + ((50 : ℕ) : ℚ) / 100) }]) ∧
    lineStep ({ file_type := some "WAVE".data }, [] ++ [({ track := 1 } : Track)])
        (index00Line 2 5 50)
      = .ok ({ file_type := some "WAVE".data }, [] ++ [({ track := 1 } : Track)]) :=
  c2_index01_timestamp { file_type := some "WAVE".data } [] { track := 1 } 2 5 50
    (by decide) (by decide) (by decide)

/-! C3: BINARY-typed cue sheets yield no tracks. -/

lemma headerStep_file_type (g : GeneralInfo) (line : PyStr) :
    (headerStep g line).file_type
      = if pyStartsWith line "FILE ".data then some ((pySplitC ' ' line).getLastD [])
        else g.file_type := by
  unfold headerStep
  by_cases h5 : pyStartsWith line "FILE ".data = true
  · simp only [h5, if_true]
  · simp only [h5, Bool.false_eq_true, if_false, apply_ite GeneralInfo.file_type]
    split
    · split
      · split
        · split
          · rfl
          · rfl
        · split
          · rfl
          · rfl
      · split
        · split
          · rfl
          · rfl
        · split
          · rfl
          · rfl
    · split
      · split
        · split
          · rfl
          · rfl
        · split
          · rfl
          · rfl
      · split
        · split
          · rfl
          · rfl
        · split
          · rfl
          · rfl

lemma lineStep_closed (st : GeneralInfo × List Track) (line : PyStr)
    (hg : gateOpen (headerStep st.1 line) = false) :
    lineStep st line = .ok (headerStep st.1 line, st.2) := by
  unfold lineStep
  simp only [hg, Bool.false_eq_true, if_false, exceptPure]

lemma gateOpen_of_binaryOnly (g : GeneralInfo) (h : binaryOnly g) : gateOpen g = false := by
  rcases h with h | h
  · unfold gateOpen
    rw [h]
  · unfold gateOpen
    rw [h]
    simp

lemma binary_fold (lines : List PyStr)
    (h : ∀ l ∈ lines, pyStartsWith l "FILE ".data = true →
        (pySplitC ' ' l).getLastD [] = "BINARY".data)
    (g : GeneralInfo) (hinv : binaryOnly g) (tracks : List Track) :
    lines.foldlM lineStep (g, tracks) = .ok (lines.foldl headerStep g, tracks) := by
  induction lines generalizing g with
  | nil => simp
  | cons l rest ih =>
    have hinv' : binaryOnly (headerStep g l) := by
      unfold binaryOnly
      rw [headerStep_file_type]
      by_cases h5 : pyStartsWith l "FILE ".data = true
      · rw [if_pos h5]
        exact Or.inr (congrArg some (h l (List.mem_cons_self _ _) h5))
      · rw [if_neg h5]
        exact hinv
    rw [List.foldlM_cons, lineStep_closed (g, tracks) l (gateOpen_of_binaryOnly _ hinv')]
    simp only [okBind]
    rw [List.foldl_cons]
    exact ih (fun x hx hsw => h x (List.mem_cons_of_mem _ hx) hsw) (headerStep g l) hinv'

/-- C3: a cue text whose every FILE directive declares the BINARY type tag parses to
status ok with an empty track list, while the album-level header fields are still
collected by the header directives alone. -/
theorem c3_binary_no_tracks (text : PyStr)
    (h : ∀ l ∈ pySplitlines text, pyStartsWith l "FILE ".data = true →
        (pySplitC ' ' l).getLastD [] = "BINARY".data) :
    parse_cue (some text) = .ok (0, (pySplitlines text).foldl headerStep {}, []) := by
  have hsome : parse_cue (some text)
      = ((pySplitlines text).foldlM lineStep ({}, []) >>= fun st =>
          durationPass st.2 >>= fun tracks => pure (0, st.1, tracks)) := rfl
  rw [hsome, binary_fold _ h {} (Or.inl rfl) []]
  simp only [okBind]
  rfl

/-- Witness for C3 at a concrete BINARY cue sheet carrying a TRACK directive. -/
theorem c3_binary_no_tracks_witness :
    parse_cue (some ("TITLE \"X\"\nFILE \"a.bin\" BINARY\n  TRACK 01 AUDIO\n    INDEX 01 00:00:00").data)
      = .ok (0,
          (pySplitlines ("TITLE \"X\"\nFILE \"a.bin\" BINARY\n  TRACK 01 AUDIO\n    INDEX 01 00:00:00").data).foldl
            headerStep {}, []) :=
  c3_binary_no_tracks _ (by decide)

/-! C10: track-level directives before the first TRACK directive raise IndexError. -/

lemma noNL_append (a b : PyStr) (ha : noNL a) (hb : noNL b) : noNL (a ++ b) := by
  constructor
  · intro hm
    rcases List.mem_append.mp hm with hm | hm
    · exact ha.1 hm
    · exact hb.1 hm
  · intro hm
    rcases List.mem_append.mp hm with hm | hm
    · exact ha.2 hm
    · exact hb.2 hm

lemma trackStep_titleLevel_error (g : GeneralInfo) (v : PyStr) :
    ∃ e, trackStep g [] ("    TITLE ".data ++ v) = .error e := by
  have h1 : pyStartsWith ("    TITLE ".data ++ v) "  TRACK ".data = false := rfl
  have h2 : pyStartsWith ("    TITLE ".data ++ v) "    TITLE ".data = true :=
    startsWith_append _ _
  unfold trackStep
  rw [h1, h2]
  simp only [Bool.false_eq_true, if_false, if_true, okBind, exceptPure]
  rw [show (setLast [] fun t =>
      { t with title := some (removeChar '"' (joinWith [' ']
          ((pySplitC ' ' (pyStrip ("    TITLE ".data ++ v))).drop 1))) })
    = Except.error "IndexError: list index out of range" from rfl]
  exact ⟨"IndexError: list index out of range", by simp only [errorBind]⟩

lemma trackStep_performerLevel_error (g : GeneralInfo) (v : PyStr) :
    ∃ e, trackStep g [] ("    PERFORMER ".data ++ v) = .error e := by
  have h1 : pyStartsWith ("    PERFORMER ".data ++ v) "  TRACK ".data = false := rfl
  have h2 : pyStartsWith ("    PERFORMER ".data ++ v) "    TITLE ".data = false := rfl
  have h3 : pyStartsWith ("    PERFORMER ".data ++ v) "    PERFORMER ".data = true :=
    startsWith_append _ _
  unfold trackStep
  rw [h1, h2, h3]
  simp only [Bool.false_eq_true, if_false, if_true, okBind, exceptPure]
  rw [show (setLast [] fun t =>
      { t with artist := some (removeChar '"' (joinWith [' ']
          ((pySplitC ' ' (pyStrip ("    PERFORMER ".data ++ v))).drop 1))) })
    = Except.error "IndexError: list index out of range" from rfl]
  exact ⟨"IndexError: list index out of range", by simp only [errorBind]⟩

lemma trackStep_indexLevel_error (g : GeneralInfo) (v : PyStr) :
    ∃ e, trackStep g [] ("    INDEX 01 ".data ++ v) = .error e := by
  have h1 : pyStartsWith ("    INDEX 01 ".data ++ v) "  TRACK ".data = false := rfl
  have h2 : pyStartsWith ("    INDEX 01 ".data ++ v) "    TITLE ".data = false := rfl
  have h3 : pyStartsWith ("    INDEX 01 ".data ++ v) "    PERFORMER ".data = false := rfl
  have h4 : pyStartsWith ("    INDEX 01 ".data ++ v) "    INDEX 01 ".data = true :=
    startsWith_append _ _
  unfold trackStep
  rw [h1, h2, h3, h4]
  cases hpt : parseIndexTime ("    INDEX 01 ".data ++ v) with
  | error e =>
    refine ⟨e, ?_⟩
    simp only [Bool.false_eq_true, if_false, if_true, okBind, exceptPure, errorBind]
  | ok q =>
    refine ⟨"IndexError: list index out of range", ?_⟩
    simp only [Bool.false_eq_true, if_false, if_true, okBind, exceptPure]
    rw [show (setLast [] fun t => { t with start := some q })
      = Except.error "IndexError: list index out of range" from rfl]
    simp only [errorBind]

lemma lineStep_open_err (st : GeneralInfo × List Track) (line : PyStr) (e : String)
    (hh : headerStep st.1 line = st.1) (hg : gateOpen st.1 = true)
    (he : trackStep st.1 st.2 line = .error e) : lineStep st line = .error e := by
  unfold lineStep
  simp only [hh, hg, if_true, he, errorBind]

lemma parse_cue_second_line_error (l1 off : PyStr) (g1 : GeneralInfo) (e : String)
    (hw1 : noNL l1 ∧ l1 ≠ []) (hw2 : noNL off ∧ off ≠ [])
    (h1 : lineStep ({}, []) l1 = .ok (g1, []))
    (h2 : lineStep (g1, []) off = .error e) :
    parse_cue (some (joinNL [l1, off])) = .error e := by
  have hsplit : pySplitlines (joinNL [l1, off]) = [l1, off] := by
    refine pySplitlines_joinNL _ ?_
    intro l hl
    rcases List.mem_cons.mp hl with rfl | hl2
    · exact hw1
    · rcases List.mem_cons.mp hl2 with rfl | hl3
      · exact hw2
      · simp at hl3
  have hsome : parse_cue (some (joinNL [l1, off]))
      = ((pySplitlines (joinNL [l1, off])).foldlM lineStep ({}, []) >>= fun st =>
          durationPass st.2 >>= fun tracks => pure (0, st.1, tracks)) := rfl
  rw [hsome, hsplit, List.foldlM_cons, h1]
  simp only [okBind]
  rw [List.foldlM_cons, h2]
  simp only [errorBind]

/-- C10: under a non-binary FILE directive, a four-space-indented track-level TITLE,
PERFORMER or INDEX 01 line occurring before any TRACK directive makes parse_cue raise an
IndexError (modelled as Except.error) instead of returning a status. -/
theorem c10_track_level_before_track (file ft v : PyStr)
    (hfsp : ' ' ∉ file) (hftsp : ' ' ∉ ft) (hfnl : noNL file) (hftnl : noNL ft)
    (hbin : ft ≠ "BINARY".data) (hv : noNL v) :
    (∃ e, parse_cue (some (joinNL [fileHeader file ft, "    TITLE ".data ++ v])) = .error e) ∧
    (∃ e, parse_cue (some (joinNL [fileHeader file ft, "    PERFORMER ".data ++ v])) = .error e) ∧
    (∃ e, parse_cue (some (joinNL [fileHeader file ft, "    INDEX 01 ".data ++ v])) = .error e) := by
  have hw1 : noNL (fileHeader file ft) ∧ fileHeader file ft ≠ [] :=
    ⟨noNL_fileHeader file ft hfnl hftnl, List.cons_ne_nil _ _⟩
  have hinit : lineStep ({}, ([] : List Track)) (fileHeader file ft)
      = .ok ({ file := some (removeChar '"' file), file_type := some ft }, []) := by
    rw [lineStep_fileHeader {} [] file ft hfsp hftsp]
  have hgate : gateOpen { file := some (removeChar '"' file), file_type := some ft } = true := by
    simp only [gateOpen, bne_iff_ne, ne_eq, decide_eq_true_eq]
    exact hbin
  refine ⟨?_, ?_, ?_⟩
  · obtain ⟨e, he⟩ := trackStep_titleLevel_error
      { file := some (removeChar '"' file), file_type := some ft } v
    refine ⟨e, parse_cue_second_line_error _ _ _ e hw1
      ⟨noNL_append _ _ (by decide) hv, List.cons_ne_nil _ _⟩ hinit ?_⟩
    exact lineStep_open_err _ _ e rfl hgate he
  · obtain ⟨e, he⟩ := trackStep_performerLevel_error
      { file := some (removeChar '"' file), file_type := some ft } v
    refine ⟨e, parse_cue_second_line_error _ _ _ e hw1
      ⟨noNL_append _ _ (by decide) hv, List.cons_ne_nil _ _⟩ hinit ?_⟩
    exact lineStep_open_err _ _ e rfl hgate he
  · obtain ⟨e, he⟩ := trackStep_indexLevel_error
      { file := some (removeChar '"' file), file_type := some ft } v
    refine ⟨e, parse_cue_second_line_error _ _ _ e hw1
      ⟨noNL_append _ _ (by decide) hv, List.cons_ne_nil _ _⟩ hinit ?_⟩
    exact lineStep_open_err _ _ e rfl hgate he

/-! C5: the status returned by parse_cue. -/

lemma parse_cue_some_status (t : PyStr) (s : ℕ) (g : GeneralInfo) (ts : List Track)
    (h : parse_cue (some t) = .ok (s, g, ts)) : s = 0 := by
  have hsome : parse_cue (some t)
      = ((pySplitlines t).foldlM lineStep ({}, []) >>= fun st =>
          durationPass st.2 >>= fun tracks => pure (0, st.1, tracks)) := rfl
  rw [hsome] at h
  cases hf : (pySplitlines t).foldlM lineStep ({}, []) with
  | error e =>
    rw [hf] at h
    simp only [errorBind] at h
    cases h
  | ok st =>
    rw [hf] at h
    simp only [okBind] at h
    cases hd : durationPass st.2 with
    | error e =>
      rw [hd] at h
      simp only [errorBind] at h
      cases h
    | ok tr =>
      rw [hd] at h
      simp only [okBind, exceptPure] at h
      injection h with h2
      exact (congrArg Prod.fst h2).symm

lemma option_orElse_some {α : Type} (x : Option α) (y : α) :
    (x.orElse fun _ => some y).isSome = true := by
  cases x <;> rfl

/-- C5 counterexample: the empty decoded text parses to status ok (0) with an empty
track list, not to the parse-failed status 1 with an empty track list. -/
theorem c5_counterexample :
    parse_cue (some ([] : PyStr)) = .ok (0, {}, []) ∧
    parse_cue (some ([] : PyStr)) ≠ .ok (1, {}, []) := by
  constructor
  · rfl
  · intro h
    exact absurd (parse_cue_some_status [] 1 {} [] h) (by decide)

/-- C5 amended: a cue text that decodes to empty text yields status ok (0) and an empty
track list; the parse-failed status 1 occurs exactly when the Text Decoder produces no
text at all, and the decoder's fallback chain always produces some text. -/
theorem c5_empty_text_and_status :
    parse_cue (some ([] : PyStr)) = .ok (0, {}, []) ∧
    (∀ o : Option PyStr, (∃ g ts, parse_cue o = .ok (1, g, ts)) ↔ o = none) ∧
    ∀ e : DecodeEnv, (decode_bytes_with_fallback e).isSome = true := by
  refine ⟨rfl, ?_, ?_⟩
  · intro o
    constructor
    · rintro ⟨g, ts, h⟩
      cases o with
      | none => rfl
      | some t => exact absurd (parse_cue_some_status t 1 g ts h) (by decide)
    · rintro rfl
      exact ⟨{}, [], rfl⟩
  · intro e
    exact option_orElse_some _ _

/-! C8: sanitization is idempotent. -/

lemma foldl_replaceChar_eq_map (r : List Char) (hr : '_' ∉ r) :
    ∀ s : PyStr, r.foldl (fun acc c => replaceChar c '_' acc) s
      = s.map fun c => if c ∈ r then '_' else c := by
  induction r with
  | nil =>
    intro s
    simp
  | cons a r ih =>
    intro s
    have h1 : '_' ∉ r := fun hm => hr (List.mem_cons_of_mem _ hm)
    have h2 : ¬ ('_' = a) := fun he => hr (he ▸ List.mem_cons_self _ _)
    rw [List.foldl_cons, ih h1]
    unfold replaceChar
    rw [List.map_map]
    apply List.map_congr_left
    intro c _
    by_cases hca : c = a
    · subst hca
      simp [List.mem_cons, h1]
    · simp [List.mem_cons, hca]

lemma safe_name_eq_map (s : PyStr) : safe_name s = s.map sanChar := by
  unfold safe_name sanChar
  exact foldl_replaceChar_eq_map illegalChars (by decide) s

/-- C8: filename sanitization is idempotent: safe_name (safe_name s) = safe_name s. -/
theorem c8_safe_name_idempotent (s : PyStr) :
    safe_name (safe_name s) = safe_name s := by
  rw [safe_name_eq_map, safe_name_eq_map s, List.map_map]
  apply List.map_congr_left
  intro c _
  by_cases hc : c ∈ illegalChars
  · simp [sanChar, hc]
  · simp [sanChar, hc]

/-! C9: the no-overwrite flag. -/

lemma getLastD_concat_char (l : PyStr) (a : Char) : ∀ d, (l ++ [a]).getLastD d = a := by
  induction l with
  | nil => intro d; rfl
  | cons x xs ih =>
    intro d
    rw [List.cons_append, List.getLastD_cons]
    exact ih x

lemma suffix_n_false (res : PyStr) (hres : res.getLastD ' ' = '"') :
    (" -n".data.isSuffixOf res) = false := by
  cases hiso : (" -n".data.isSuffixOf res) with
  | false => rfl
  | true =>
    exfalso
    have hsfx : " -n".data <:+ res := List.isSuffixOf_iff_suffix.mp hiso
    obtain ⟨pre, hpre⟩ := hsfx
    have hlast : res.getLastD ' ' = 'n' := by
      rw [← hpre, show " -n".data = [' ', '-'] ++ ['n'] from rfl, ← List.append_assoc,
        getLastD_concat_char]
    exact absurd (hlast.symm.trans hres) (by decide)

lemma trackCmd_ok_suffix (total : ℕ) (p c d : PyStr) (v o : Bool) (t : Track) (res : PyStr)
    (h : trackCmd total p c d v o t = .ok res) :
    (" -n".data.isSuffixOf res) = !o := by
  unfold trackCmd at h
  cases hart : t.artist with
  | none => rw [hart] at h; simp only [errorBind] at h; cases h
  | some artist =>
  rw [hart] at h
  simp only [okBind] at h
  cases hti : t.title with
  | none => rw [hti] at h; simp only [errorBind] at h; cases h
  | some title =>
  rw [hti] at h
  simp only [okBind] at h
  cases hal : t.album with
  | none => rw [hal] at h; simp only [errorBind] at h; cases h
  | some album =>
  rw [hal] at h
  simp only [okBind] at h
  simp only [pyStart] at h
  cases hst : t.start with
  | none => rw [hst] at h; simp only [errorBind] at h; cases h
  | some q =>
  rw [hst] at h
  simp only [okBind] at h
  rw [show split_filename t = .ok (safe_name (fmt2 t.track ++ " - ".data
      ++ replaceChar ':' '-' title ++ ".flac".data)) from by
    unfold split_filename
    rw [hti]
    simp only [okBind, exceptPure]] at h
  simp only [okBind, exceptPure] at h
  injection h with h2
  rw [← h2]
  cases o with
  | true =>
    simp only [eq_self_iff_true, if_true]
    apply suffix_n_false
    exact getLastD_concat_char _ _ _
  | false =>
    simp only [Bool.not_false, Bool.false_eq_true, if_false]
    rw [List.isSuffixOf_iff_suffix]
    exact List.suffix_append _ _

lemma mapM_ok_mem {α β : Type} (f : α → Except String β) (l : List α) (res : List β)
    (h : l.mapM f = .ok res) : ∀ b ∈ res, ∃ a ∈ l, f a = .ok b := by
  induction l generalizing res with
  | nil =>
    intro b hb
    rw [List.mapM_nil] at h
    injection h with h2
    rw [← h2] at hb
    simp at hb
  | cons a l ih =>
    intro b hb
    rw [List.mapM_cons] at h
    cases hfa : f a with
    | error e => rw [hfa] at h; simp only [errorBind] at h; cases h
    | ok b0 =>
      rw [hfa] at h
      simp only [okBind] at h
      cases hml : l.mapM f with
      | error e => rw [hml] at h; simp only [errorBind] at h; cases h
      | ok res0 =>
        rw [hml] at h
        simp only [okBind, exceptPure] at h
        injection h with h2
        rw [← h2] at hb
        rcases List.mem_cons.mp hb with rfl | hb2
        · exact ⟨a, List.mem_cons_self _ _, hfa⟩
        · obtain ⟨a2, ha2, hfa2⟩ := ih res0 hml b hb2
          exact ⟨a2, List.mem_cons_of_mem _ ha2, hfa2⟩

/-- C9: every command produced by make_split_cmd carries the trailing no-overwrite flag
" -n" exactly when the overwrite option is not set. -/
theorem c9_no_overwrite_flag (tracks : List Track) (p c d : PyStr) (v o : Bool)
    (cmds : List PyStr) (h : make_split_cmd tracks p c d v o = .ok cmds) :
    ∀ cmd ∈ cmds, (" -n".data.isSuffixOf cmd) = !o := by
  intro cmd hcmd
  obtain ⟨t, _, hok⟩ := mapM_ok_mem _ tracks cmds h cmd hcmd
  exact trackCmd_ok_suffix tracks.length p c d v o t cmd hok

/-- Witness for C9 on a concrete one-track list, with and without overwrite. -/
theorem c9_no_overwrite_flag_witness :
    (∃ cmds, make_split_cmd [sampleTrack] "ffmpeg".data "in.flac".data "out".data
        false false = .ok cmds ∧ ∀ cmd ∈ cmds, (" -n".data.isSuffixOf cmd) = true) ∧
    (∃ cmds, make_split_cmd [sampleTrack] "ffmpeg".data "in.flac".data "out".data
        false true = .ok cmds ∧ ∀ cmd ∈ cmds, (" -n".data.isSuffixOf cmd) = false) := by
  constructor
  · refine ⟨_, rfl, ?_⟩
    have h := c9_no_overwrite_flag [sampleTrack] "ffmpeg".data "in.flac".data "out".data
      false false _ rfl
    exact h
  · refine ⟨_, rfl, ?_⟩
    have h := c9_no_overwrite_flag [sampleTrack] "ffmpeg".data "in.flac".data "out".data
      false true _ rfl
    exact h

/-! C4: the synthesized seek and duration timestamps. -/

lemma rat_floor_intCast (j : ℤ) : ((j : ℚ)).floor = j := by
  rw [Rat.floor_def', Rat.num_intCast, Rat.den_intCast]
  simp

lemma pyTrunc_intCast (i : ℤ) : pyTrunc ((i : ℤ) : ℚ) = i := by
  unfold pyTrunc
  by_cases h : ((i : ℚ) < 0)
  · rw [if_pos h, show -((i : ℤ) : ℚ) = (((-i : ℤ)) : ℚ) from by push_cast; ring,
      rat_floor_intCast]
    ring
  · rw [if_neg h, rat_floor_intCast]

lemma fmt2_length (i : ℤ) (h0 : 0 ≤ i) (h : i < 100) : (fmt2 i).length = 2 := by
  unfold fmt2
  rw [if_neg (by omega : ¬i < 0)]
  by_cases h10 : i.natAbs < 10
  · have hone : natToChars i.natAbs = [digitChar i.natAbs] := by
      unfold natToChars natToCharsAux
      rw [if_pos h10]
    simp [hone]
  · have h100 : i.natAbs < 100 := by omega
    obtain ⟨k, hk⟩ : ∃ k, i.natAbs = k + 1 := ⟨i.natAbs - 1, by omega⟩
    have htwo : natToChars i.natAbs
        = [digitChar (i.natAbs / 10), digitChar (i.natAbs % 10)] := by
      unfold natToChars natToCharsAux
      rw [if_neg h10, hk]
      rw [show natToCharsAux (k + 1) ((k + 1) / 10)
          = if (k + 1) / 10 < 10 then [digitChar ((k + 1) / 10)]
            else natToCharsAux k ((k + 1) / 10 / 10) ++ [digitChar ((k + 1) / 10 % 10)] from rfl]
      rw [if_pos (by omega)]
      rfl
    simp [htwo]

set_option maxRecDepth 8000 in
/-- C4: on tracks starting at 0 and 125.5 seconds, the synthesized commands seek at
00:00:00 with duration bound 00:02:05 (125 seconds truncated from 125.5) and at
00:02:05 with no duration bound; timestamps ignore the sub-second part and every
component is zero-padded to two digits. -/
theorem c4_split_cmd_timestamps :
    make_split_cmd [c4track1, c4track2] "ffmpeg".data "cue.flac".data "out".data false false
      = .ok
        [("ffmpeg -nostats -i \"cue.flac\" -ss 00:00:00 -t 00:02:05 -metadata artist=\"Artist\" -metadata title=\"Song One\" -metadata album=\"Album\" -metadata track=\"1/2\" \"out/01 - Song One.flac\" -n").data,
         ("ffmpeg -nostats -i \"cue.flac\" -ss 00:02:05 -metadata artist=\"Artist\" -metadata title=\"Song Two\" -metadata album=\"Album\" -metadata track=\"2/2\" \"out/02 - Song Two.flac\" -n").data] ∧
    (∀ q : ℚ, fmtHMS q = fmtHMS ((pyTrunc q : ℤ) : ℚ)) ∧
    (∀ i : ℤ, 0 ≤ i → i < 100 → (fmt2 i).length = 2) := by
  refine ⟨by with_unfolding_all rfl, ?_, fmt2_length⟩
  intro q
  show fmt2 (pyTrunc ((pyTrunc q : ℚ) / 60 / 60)) ++
      ':' :: fmt2 (pyTrunc (pyFMod ((pyTrunc q : ℚ) / 60) 60)) ++ ':' :: fmt2 (pyTrunc q % 60)
    = fmt2 (pyTrunc ((pyTrunc ((pyTrunc q : ℤ) : ℚ) : ℚ) / 60 / 60)) ++
      ':' :: fmt2 (pyTrunc (pyFMod ((pyTrunc ((pyTrunc q : ℤ) : ℚ) : ℚ) / 60) 60)) ++
      ':' :: fmt2 (pyTrunc ((pyTrunc q : ℤ) : ℚ) % 60)
  rw [pyTrunc_intCast]

/-- Witness for C4's general formatting conjunct at the concrete value 125.5. -/
theorem c4_split_cmd_timestamps_witness :
    fmtHMS (251 / 2 : ℚ) = fmtHMS ((pyTrunc (251 / 2 : ℚ) : ℤ) : ℚ) ∧
    (fmt2 5).length = 2 :=
  ⟨c4_split_cmd_timestamps.2.1 (251 / 2 : ℚ),
    c4_split_cmd_timestamps.2.2 5 (by decide) (by decide)⟩

/-! C6: a track without INDEX 01 has no start, and command synthesis fails on it. -/

/-- C6 counterexample: parse_cue leaves start unset on a TRACK without INDEX 01, and
make_split_cmd raises a KeyError on that track instead of tolerating it. -/
theorem c6_counterexample :
    parse_cue (some c6text) = .ok (0, c6general, [c6track]) ∧
    c6track.start = none ∧
    make_split_cmd [c6track] "ffmpeg".data "f.wav".data "out".data false false
      = .error "KeyError: start" := by
  refine ⟨by with_unfolding_all rfl, rfl, by with_unfolding_all rfl⟩

lemma trackCmd_start_none (total : ℕ) (p c d : PyStr) (v o : Bool) (t : Track)
    (h : t.start = none) : ∀ res, trackCmd total p c d v o t ≠ .ok res := by
  intro res hok
  unfold trackCmd at hok
  cases hart : t.artist with
  | none => rw [hart] at hok; simp only [errorBind] at hok; cases hok
  | some artist =>
  rw [hart] at hok
  simp only [okBind] at hok
  cases hti : t.title with
  | none => rw [hti] at hok; simp only [errorBind] at hok; cases hok
  | some title =>
  rw [hti] at hok
  simp only [okBind] at hok
  cases hal : t.album with
  | none => rw [hal] at hok; simp only [errorBind] at hok; cases hok
  | some album =>
  rw [hal] at hok
  simp only [okBind] at hok
  simp only [pyStart] at hok
  rw [h] at hok
  simp only [errorBind] at hok
  cases hok

lemma mapM_error_of_mem {α β : Type} (f : α → Except String β) (l : List α) (a : α)
    (ha : a ∈ l) (hf : ∀ res, f a ≠ .ok res) : ∃ e, l.mapM f = .error e := by
  induction l with
  | nil => simp at ha
  | cons x l ih =>
    rw [List.mapM_cons]
    cases hfx : f x with
    | error e => exact ⟨e, by simp only [errorBind]⟩
    | ok b =>
      rcases List.mem_cons.mp ha with rfl | ha2
      · exact absurd hfx (hf b)
      · obtain ⟨e, he⟩ := ih ha2
        refine ⟨e, ?_⟩
        simp only [okBind]
        rw [he]
        simp only [errorBind]

/-- C6 amended: a TRACK directive not followed by an INDEX 01 line gets no start key,
and downstream split-command synthesis raises a KeyError whenever any input track lacks
the start key, rather than tolerating it. -/
theorem c6_missing_start_errors :
    (parse_cue (some c6text) = .ok (0, c6general, [c6track]) ∧ c6track.start = none) ∧
    ∀ (tracks : List Track) (t : Track) (p c d : PyStr) (v o : Bool),
      t ∈ tracks → t.start = none →
      ∃ e, make_split_cmd tracks p c d v o = .error e := by
  refine ⟨⟨by with_unfolding_all rfl, rfl⟩, ?_⟩
  intro tracks t p c d v o hmem hstart
  exact mapM_error_of_mem _ tracks t hmem
    (trackCmd_start_none tracks.length p c d v o t hstart)

/-- Witness for C6 amended on the concrete start-less track. -/
theorem c6_missing_start_errors_witness :
    ∃ e, make_split_cmd [c6track] "ffmpeg".data "f.wav".data "out".data false false
      = .error e :=
  c6_missing_start_errors.2 [c6track] c6track "ffmpeg".data "f.wav".data "out".data
    false false (List.mem_singleton.mpr rfl) rfl

/-! C7: colon handling in the output filename. -/

/-- C7 counterexample: the filename synthesized for title "A: B" is "01 - A- B.flac"
(the colon becomes a hyphen), so it does not contain the claimed "A_ B". -/
theorem c7_counterexample :
    split_filename c7track = .ok ("01 - A- B.flac").data ∧
    containsSub ("A_ B").data ("01 - A- B.flac").data = false ∧
    make_split_cmd [c7track] "ffmpeg".data "in.flac".data "out".data false false
      = .ok [("ffmpeg -nostats -i \"in.flac\" -ss 00:00:00 -metadata artist=\"P\" -metadata title=\"A: B\" -metadata album=\"Al\" -metadata track=\"1/1\" \"out/01 - A- B.flac\" -n").data] := by
  refine ⟨by with_unfolding_all rfl, by decide, by with_unfolding_all rfl⟩

/-- C7 amended: for title "A: B" the produced filename is "01 - A- B.flac" — the colon
is replaced by a hyphen by the explicit pre-replacement, not by an underscore — and in
general the synthesized filename contains no filesystem-illegal character. -/
theorem c7_filename_sanitized :
    (split_filename c7track = .ok ("01 - A- B.flac").data ∧
      containsSub ("A- B").data ("01 - A- B.flac").data = true) ∧
    ∀ (t : Track) (fn : PyStr), split_filename t = .ok fn →
      ∀ ch ∈ fn, ch ∉ illegalChars := by
  refine ⟨⟨by with_unfolding_all rfl, by decide⟩, ?_⟩
  intro t fn h ch hch
  unfold split_filename at h
  cases hti : t.title with
  | none => rw [hti] at h; simp only [errorBind] at h; cases h
  | some ti =>
    rw [hti] at h
    simp only [okBind, exceptPure] at h
    injection h with h2
    rw [← h2] at hch
    rw [safe_name_eq_map] at hch
    obtain ⟨c0, hc0, rfl⟩ := List.mem_map.mp hch
    unfold sanChar
    by_cases hc : c0 ∈ illegalChars
    · rw [if_pos hc]
      decide
    · rw [if_neg hc]
      exact hc

/-- Witness for C7 amended on the concrete "A: B" track's filename. -/
theorem c7_filename_sanitized_witness :
    ∀ ch ∈ (("01 - A- B.flac").data : PyStr), ch ∉ illegalChars :=
  c7_filename_sanitized.2 c7track ("01 - A- B.flac").data (by with_unfolding_all rfl)

/-- Witness for C10 at a concrete cue sheet whose second line is a track-level TITLE. -/
theorem c10_track_level_before_track_witness :
    (∃ e, parse_cue (some (joinNL [fileHeader "f.wav".data "WAVE".data,
        "    TITLE ".data ++ "\"T\"".data])) = .error e) ∧
    (∃ e, parse_cue (some (joinNL [fileHeader "f.wav".data "WAVE".data,
        "    PERFORMER ".data ++ "\"T\"".data])) = .error e) ∧
    (∃ e, parse_cue (some (joinNL [fileHeader "f.wav".data "WAVE".data,
        "    INDEX 01 ".data ++ "\"T\"".data])) = .error e) :=
  c10_track_level_before_track "f.wav".data "WAVE".data "\"T\"".data
    (by decide) (by decide) (by decide) (by decide) (by decide) (by decide)

end FlacBelcher
